import Mathlib

/-!
# Verification of the conversation-history lifecycle of the U.S. Tax Assistant bot

This development embeds, as Lean definitions, the history-management core of
the Teams tax-assistant bot: the token counters and the trimmer
(`countTokensInMessage`, `countTokensInMessages`, `trimConversationToTokenLimit`
from the bot class), the storage service
(`saveConversationHistory` / `loadConversationHistory` /
`deleteConversationHistory`), the fail-closed disclaimer classifier
(`classifyTextForDisclaimer`), and the per-turn orchestration of the
`onMessage` handler.  The tokenizer (`tiktoken`'s `encoding_for_model`) is an
external library and every statement is parametric in it: `enc : String → Nat`
stands for `text => encoder.encode(text).length`, which is a non-negative
integer count for any text.
-/

namespace TaxBot

/-- One element of a turn's `content` array: `{type, text}`. -/
structure ContentItem where
  type : String
  text : String
deriving Repr, DecidableEq

/-- One turn of the conversation: `{role, content}`.  In the JavaScript source
`content` may be absent (the token counter guards with
`message.content && Array.isArray(message.content)`), hence the `Option`. -/
structure Message where
  role : String
  content : Option (List ContentItem)
deriving Repr, DecidableEq

/-- `MAX_TOKENS = 900000`: max tokens to keep in history (90% of the 1M limit). -/
def MAX_TOKENS : Nat := 900000

/-- `countTokensInMessage(message)`: sums `encoder.encode(content.text).length`
over the entries of `message.content` whose `type` is `input_text` or
`output_text`; a missing content array contributes nothing. -/
def countTokensInMessage (enc : String → Nat) (message : Message) : Nat :=
  match message.content with
  | some content =>
      content.foldl
        (fun tokenCount c =>
          if c.type = "input_text" ∨ c.type = "output_text" then
            tokenCount + enc c.text
          else tokenCount) 0
  | none => 0

/-- `countTokensInMessages(messages)`: total token count of a sequence of
turns, `totalTokens += countTokensInMessage(message)` over the sequence. -/
def countTokensInMessages (enc : String → Nat) (messages : List Message) : Nat :=
  messages.foldl (fun totalTokens m => totalTokens + countTokensInMessage enc m) 0

/-- `countTokensInHistory(history)` just delegates to `countTokensInMessages`. -/
def countTokensInHistory (enc : String → Nat) (history : List Message) : Nat :=
  countTokensInMessages enc history

/-- The `while` loop of `trimConversationToTokenLimit`, written by structural
recursion on the list: while
`systemTokens + userTokens + countTokensInHistory(trimmedHistory) > MAX_TOKENS
&& trimmedHistory.length >= 2`, do `trimmedHistory.splice(0, 2)` (remove the
oldest user-assistant pair).  The two base patterns are exactly the histories
with `length < 2`, on which the loop guard is false. -/
def trimLoop (enc : String → Nat) (systemTokens userTokens : Nat) :
    List Message → List Message
  | [] => []
  | [m] => [m]
  | m1 :: m2 :: rest =>
      if systemTokens + userTokens + countTokensInHistory enc (m1 :: m2 :: rest)
          > MAX_TOKENS then
        trimLoop enc systemTokens userTokens rest
      else m1 :: m2 :: rest

/-- `trimConversationToTokenLimit(history, systemTokens, userTokens)`:
return an empty history unchanged; return the history unchanged when
`systemTokens + userTokens + countTokensInHistory(history) ≤ MAX_TOKENS`;
otherwise clone the array and repeatedly remove the oldest message pair until
under the limit or fewer than two turns remain.  The percentage and the
removed-token bookkeeping of the source are `console.log` observability only
and do not feed any control decision. -/
def trimConversationToTokenLimit (enc : String → Nat) (history : List Message)
    (systemTokens userTokens : Nat) : List Message :=
  if history.length = 0 then history
  else
    let currentHistoryTokens := countTokensInHistory enc history
    let totalTokens := systemTokens + userTokens + currentHistoryTokens
    if totalTokens ≤ MAX_TOKENS then history
    else trimLoop enc systemTokens userTokens history

/-! ## Basic lemmas on the token counters and the trim loop -/

theorem foldl_add_shift (f : Message → Nat) :
    ∀ (l : List Message) (n : Nat),
      l.foldl (fun t m => t + f m) n = n + l.foldl (fun t m => t + f m) 0 := by
  intro l
  induction l with
  | nil => intro n; simp
  | cons m ms ih =>
      intro n
      simp only [List.foldl_cons]
      rw [ih (n + f m), ih (0 + f m)]
      omega

theorem countTokensInMessages_cons (enc : String → Nat) (m : Message)
    (ms : List Message) :
    countTokensInMessages enc (m :: ms)
      = countTokensInMessage enc m + countTokensInMessages enc ms := by
  simp only [countTokensInMessages, List.foldl_cons]
  rw [foldl_add_shift]
  omega

theorem countTokensInMessages_append (enc : String → Nat)
    (l1 l2 : List Message) :
    countTokensInMessages enc (l1 ++ l2)
      = countTokensInMessages enc l1 + countTokensInMessages enc l2 := by
  induction l1 with
  | nil => simp [countTokensInMessages]
  | cons m ms ih =>
      rw [List.cons_append, countTokensInMessages_cons, ih,
        countTokensInMessages_cons]
      omega

/-- Postcondition of the trimming loop: either the budget is met or at most one
turn remains (the loop guard demands at least two turns to remove a pair). -/
theorem trimLoop_post (enc : String → Nat) (S U : Nat) (h : List Message) :
    S + U + countTokensInHistory enc (trimLoop enc S U h) ≤ MAX_TOKENS ∨
      (trimLoop enc S U h).length ≤ 1 := by
  induction h using trimLoop.induct enc S U with
  | case1 => right; rw [trimLoop]; simp
  | case2 m => right; rw [trimLoop]; simp
  | case3 m1 m2 rest hc ih => rw [trimLoop, if_pos hc]; exact ih
  | case4 m1 m2 rest hc => left; rw [trimLoop, if_neg hc]; omega

/-- The loop only drops elements from the front: its result is a suffix. -/
theorem trimLoop_suffix (enc : String → Nat) (S U : Nat) (h : List Message) :
    trimLoop enc S U h <:+ h := by
  induction h using trimLoop.induct enc S U with
  | case1 => rw [trimLoop]
  | case2 m => rw [trimLoop]
  | case3 m1 m2 rest hc ih =>
      rw [trimLoop, if_pos hc]
      exact ih.trans ((List.suffix_cons m2 rest).trans
        (List.suffix_cons m1 (m2 :: rest)))
  | case4 m1 m2 rest hc => rw [trimLoop, if_neg hc]

/-- The loop removes turns two at a time, so it preserves length parity. -/
theorem trimLoop_even (enc : String → Nat) (S U : Nat) (h : List Message)
    (he : Even h.length) : Even (trimLoop enc S U h).length := by
  induction h using trimLoop.induct enc S U with
  | case1 => rw [trimLoop]; exact he
  | case2 m => rw [trimLoop]; exact he
  | case3 m1 m2 rest hc ih =>
      rw [trimLoop, if_pos hc]
      apply ih
      simp only [List.length_cons] at he
      rcases he with ⟨k, hk⟩
      exact ⟨k - 1, by omega⟩
  | case4 m1 m2 rest hc => rw [trimLoop, if_neg hc]; exact he

/-- Histories with fewer than two turns are fixed points of the loop. -/
theorem trimLoop_short_fix (enc : String → Nat) (S U : Nat) (h : List Message)
    (hl : h.length ≤ 1) : trimLoop enc S U h = h := by
  match h with
  | [] => rw [trimLoop]
  | [m] => rw [trimLoop]
  | m1 :: m2 :: rest => simp at hl

/-- Unfolding of `trimConversationToTokenLimit` with its `let`s inlined. -/
theorem trim_eq (enc : String → Nat) (history : List Message)
    (systemTokens userTokens : Nat) :
    trimConversationToTokenLimit enc history systemTokens userTokens
      = if history.length = 0 then history
        else if systemTokens + userTokens + countTokensInHistory enc history
            ≤ MAX_TOKENS then history
        else trimLoop enc systemTokens userTokens history := rfl

/-! ## Claim theorems about the trimmer -/

/-- C1: for every history `H` and fixed `systemTokens` `S`,
`trimConversationToTokenLimit(H, S, 0)` yields `H'` with
`S + tokensOf(H') ≤ MAX_TOKENS`, or else `H'` has at most one element left
(a single exchange alone exceeding the budget). -/
theorem trim_budget_invariant (enc : String → Nat) (H : List Message)
    (S : Nat) :
    S + countTokensInMessages enc (trimConversationToTokenLimit enc H S 0)
        ≤ MAX_TOKENS ∨
      (trimConversationToTokenLimit enc H S 0).length ≤ 1 := by
  unfold trimConversationToTokenLimit
  by_cases h0 : H.length = 0
  · right; simp [h0]
  · rw [if_neg h0]
    by_cases hle : S + 0 + countTokensInHistory enc H ≤ MAX_TOKENS
    · left
      simp only [if_pos hle]
      simpa [countTokensInHistory] using hle
    · simp only [if_neg hle]
      rcases trimLoop_post enc S 0 H with hb | hs
      · left; simpa [countTokensInHistory] using hb
      · right; exact hs

/-- C2: the length of the history is even before and after trimming —
on an even-length history, `trimConversationToTokenLimit` never yields an
odd-length result. -/
theorem trim_preserves_even_length (enc : String → Nat) (H : List Message)
    (S U : Nat) (he : Even H.length) :
    Even (trimConversationToTokenLimit enc H S U).length := by
  unfold trimConversationToTokenLimit
  by_cases h0 : H.length = 0
  · simp [h0]
  · rw [if_neg h0]
    by_cases hle : S + U + countTokensInHistory enc H ≤ MAX_TOKENS
    · simpa [hle] using he
    · simp only [if_neg hle]
      exact trimLoop_even enc S U H he

/-- C7: the trimmer is idempotent —
`trim(trim(H, S, 0), S, 0)` is content-equal to `trim(H, S, 0)`, and an
already-compliant history is returned unchanged. -/
theorem trim_idempotent (enc : String → Nat) (H : List Message) (S : Nat) :
    trimConversationToTokenLimit enc
        (trimConversationToTokenLimit enc H S 0) S 0
      = trimConversationToTokenLimit enc H S 0 := by
  by_cases h0 : H.length = 0
  · simp [trim_eq, h0]
  · by_cases hle : S + 0 + countTokensInHistory enc H ≤ MAX_TOKENS
    · rw [trim_eq enc H, if_neg h0, if_pos hle, trim_eq, if_neg h0, if_pos hle]
    · have hR : trimConversationToTokenLimit enc H S 0
          = trimLoop enc S 0 H := by
        rw [trim_eq, if_neg h0, if_neg hle]
      rw [hR]
      set R := trimLoop enc S 0 H with hRdef
      by_cases hR0 : R.length = 0
      · rw [trim_eq, if_pos hR0]
      · rw [trim_eq, if_neg hR0]
        by_cases hRle : S + 0 + countTokensInHistory enc R ≤ MAX_TOKENS
        · rw [if_pos hRle]
        · rw [if_neg hRle]
          rcases trimLoop_post enc S 0 H with hb | hs
          · exact absurd (hRdef ▸ hb) hRle
          · exact trimLoop_short_fix enc S 0 R (hRdef ▸ hs)

/-- C8: trimming removes exchanges strictly from the front — the result of
`trimConversationToTokenLimit(H, S, U)` is always a contiguous suffix of `H`
(no reordering, no removal from the middle). -/
theorem trim_is_suffix (enc : String → Nat) (H : List Message) (S U : Nat) :
    trimConversationToTokenLimit enc H S U <:+ H := by
  unfold trimConversationToTokenLimit
  by_cases h0 : H.length = 0
  · simp [h0]
  · rw [if_neg h0]
    by_cases hle : S + U + countTokensInHistory enc H ≤ MAX_TOKENS
    · simp [hle]
    · simp only [if_neg hle]
      exact trimLoop_suffix enc S U H

/-- C10: token counting is an additive homomorphism over turn sequences,
every count is a non-negative integer, a turn with no content array counts
zero, and a content entry whose type is neither `input_text` nor
`output_text` contributes exactly zero. -/
theorem countTokens_additive (enc : String → Nat) :
    (∀ H1 H2 : List Message,
        countTokensInMessages enc (H1 ++ H2)
          = countTokensInMessages enc H1 + countTokensInMessages enc H2) ∧
    (∀ H : List Message, 0 ≤ countTokensInMessages enc H) ∧
    (∀ r : String, countTokensInMessage enc ⟨r, none⟩ = 0) ∧
    (∀ (r : String) (c : ContentItem) (cs : List ContentItem),
        ¬(c.type = "input_text" ∨ c.type = "output_text") →
        countTokensInMessage enc ⟨r, some (c :: cs)⟩
          = countTokensInMessage enc ⟨r, some cs⟩) := by
  refine ⟨countTokensInMessages_append enc, fun H => Nat.zero_le _,
    fun r => rfl, fun r c cs hc => ?_⟩
  simp only [countTokensInMessage, List.foldl_cons, if_neg hc]

/-! ## Concrete sample data for witnesses

`sampleEnc` is a stand-in tokenizer for concrete evaluation; every theorem
above is parametric in the tokenizer, so any `String → Nat` instantiates it. -/

def sampleEnc : String → Nat := fun s => s.length

def sampleUserMsg : Message :=
  { role := "user", content := some [{ type := "input_text", text := "hi" }] }

def sampleAsstMsg : Message :=
  { role := "assistant",
    content := some [{ type := "output_text", text := "hello" }] }

/-- Witness for C2 at a concrete even-length history. -/
theorem trim_preserves_even_length_witness :
    Even ([sampleUserMsg, sampleAsstMsg] : List Message).length ∧
      Even (trimConversationToTokenLimit sampleEnc
        [sampleUserMsg, sampleAsstMsg] 500 0).length :=
  ⟨by decide,
    trim_preserves_even_length sampleEnc [sampleUserMsg, sampleAsstMsg] 500 0
      (by decide)⟩

/-- Witness for C10: a `refusal`-typed content entry contributes zero. -/
theorem countTokens_additive_witness :
    countTokensInMessage sampleEnc
        ⟨"assistant", some (⟨"refusal", "no"⟩ :: [⟨"output_text", "hi"⟩])⟩
      = countTokensInMessage sampleEnc
          ⟨"assistant", some [⟨"output_text", "hi"⟩]⟩ :=
  (countTokens_additive sampleEnc).2.2.2 "assistant" ⟨"refusal", "no"⟩
    [⟨"output_text", "hi"⟩] (by decide)

/-! ## The disclaimer classifier (`taxDisclaimerClassifier.js`) -/

/-- `CLASSIFICATION_LABELS`: the two-value label enum of the classifier. -/
inductive ClassificationLabel where
  | NEEDS_DISCLAIMER
  | NO_DISCLAIMER_NEEDED
deriving Repr, DecidableEq

/-- The `DisclaimerClassificationSchema` record:
`{class_label, explanation}`. -/
structure DisclaimerClassification where
  class_label : ClassificationLabel
  explanation : String
deriving Repr, DecidableEq

/-- `classifyTextForDisclaimer(openaiClient, text)`: the whole body is wrapped
in `try { ... } catch (error) { ... }`.  The external instructor/model call is
embedded as its outcome `callResult`: `Except.ok r` when the call returns a
schema-validated record `r`, `Except.error e` when it throws for any reason
(network failure, parsing failure, malformed model output — all surface as a
thrown error caught by the `catch`).  The `catch` branch returns the fixed
fail-safe record. -/
def classifyTextForDisclaimer
    (callResult : Except String DisclaimerClassification) :
    DisclaimerClassification :=
  match callResult with
  | Except.ok result => result
  | Except.error _ =>
      { class_label := ClassificationLabel.NEEDS_DISCLAIMER,
        explanation :=
          "Classification failed, defaulting to showing disclaimer for safety" }

/-- C3: if the classifier call fails (throws) for any reason,
`classifyTextForDisclaimer` still resolves — it is a total function of the
call outcome — and the resulting `class_label` is always `NEEDS_DISCLAIMER`. -/
theorem classify_fail_closed (e : String) :
    (classifyTextForDisclaimer (Except.error e)).class_label
      = ClassificationLabel.NEEDS_DISCLAIMER := rfl

/-! ## The storage service (`storageService.js`)

Both backends (local filesystem and Azure blob) write `JSON.stringify(history)`
under the key `<conversationId>.json`, read it back with `JSON.parse`, and
remove it on delete; the backend choice changes only the I/O calls, not the
data.  The store is modeled as a map from conversation id to stored blob
content, and a blob body (a piece of JSON text) is modeled by its parse
outcome: `jsonText j` for text that `JSON.parse` turns into the value `j`,
`malformed raw` for text on which `JSON.parse` throws (or empty text).
I/O primitives are modeled as succeeding; the code logs and swallows their
errors. -/

/-- A JSON value, the result of `JSON.parse` on well-formed JSON text (and the
argument of `JSON.stringify`). -/
inductive Json where
  | str : String → Json
  | num : Int → Json
  | bool : Bool → Json
  | null : Json
  | arr : List Json → Json
  | obj : List (String × Json) → Json

/-- The body of a stored blob/file. -/
inductive BlobContent where
  | jsonText : Json → BlobContent
  | malformed : String → BlobContent

/-- The state of the history store: one optional blob per conversation id. -/
structure StorageState where
  files : String → Option BlobContent

/-- The store with no blobs. -/
def emptyStorage : StorageState := { files := fun _ => none }

/-- The JS value `{type, text}` of one content entry, as `JSON.stringify`
serializes it. -/
def encodeContentItem (c : ContentItem) : Json :=
  Json.obj [("type", Json.str c.type), ("text", Json.str c.text)]

/-- The JS value `{role, content}` of one turn; a turn without a content
array serializes without a `content` field. -/
def encodeMessage (m : Message) : Json :=
  match m.content with
  | some cs =>
      Json.obj [("role", Json.str m.role),
                ("content", Json.arr (cs.map encodeContentItem))]
  | none => Json.obj [("role", Json.str m.role)]

/-- The JS value of a whole history: an array of turn objects. -/
def encodeHistory (history : List Message) : Json :=
  Json.arr (history.map encodeMessage)

/-- JS property lookup on a parsed object. -/
def getField : List (String × Json) → String → Option Json
  | [], _ => none
  | (k, v) :: rest, key => if k = key then some v else getField rest key

/-- Reads one `{type, text}` entry back from its JSON value. -/
def decodeContentItem : Json → Option ContentItem
  | Json.obj fields =>
      match getField fields ("type"), getField fields ("text") with
      | some (Json.str ty), some (Json.str tx) => some ⟨ty, tx⟩
      | _, _ => none
  | _ => none

/-- Reads one turn back from its JSON value. -/
def decodeMessage : Json → Option Message
  | Json.obj fields =>
      match getField fields ("role") with
      | some (Json.str r) =>
          match getField fields ("content") with
          | none => some ⟨r, none⟩
          | some (Json.arr items) =>
              match items.mapM decodeContentItem with
              | some cs => some ⟨r, some cs⟩
              | none => none
          | some _ => none
      | _ => none
  | _ => none

/-- Reads a whole history back from its JSON value. -/
def decodeHistory : Json → Option (List Message)
  | Json.arr items => items.mapM decodeMessage
  | _ => none

/-- `saveConversationHistory(conversationId, history)`: serializes the history
with `JSON.stringify` and overwrites the blob `<conversationId>.json`. -/
def saveConversationHistory (conversationId : String) (history : List Message)
    (st : StorageState) : StorageState :=
  { files := fun k =>
      if k = conversationId then
        some (BlobContent.jsonText (encodeHistory history))
      else st.files k }

/-- `loadConversationHistory(conversationId)`: reads the blob if it exists and
returns `JSON.parse(content)`; returns `[]` when the blob is missing, when the
content is empty, or when `JSON.parse` throws (the `catch` branch). -/
def loadConversationHistory (conversationId : String) (st : StorageState) :
    Json :=
  match st.files conversationId with
  | none => Json.arr []
  | some (BlobContent.jsonText j) => j
  | some (BlobContent.malformed _) => Json.arr []

/-- `deleteConversationHistory(conversationId)`: removes the blob if present
(`unlinkSync` guarded by `existsSync`, resp. `deleteIfExists`); deleting an
absent blob is a logged no-op. -/
def deleteConversationHistory (conversationId : String) (st : StorageState) :
    StorageState :=
  { files := fun k => if k = conversationId then none else st.files k }

/-! ## Round-trip lemmas for the persisted format -/

theorem decodeContentItem_encode (c : ContentItem) :
    decodeContentItem (encodeContentItem c) = some c := rfl

theorem mapM_decode_encode (cs : List ContentItem) :
    (cs.map encodeContentItem).mapM decodeContentItem = some cs := by
  induction cs with
  | nil => rfl
  | cons c rest ih =>
      simp only [List.map_cons, List.mapM_cons, decodeContentItem_encode, ih,
        Option.pure_def, Option.bind_eq_bind, Option.some_bind]

theorem decodeMessage_obj (r : String) (items : List Json) :
    decodeMessage (Json.obj [("role", Json.str r),
        ("content", Json.arr items)])
      = match items.mapM decodeContentItem with
        | some cs => some ⟨r, some cs⟩
        | none => none := rfl

theorem decodeMessage_encode (m : Message) :
    decodeMessage (encodeMessage m) = some m := by
  match m with
  | ⟨r, none⟩ => rfl
  | ⟨r, some cs⟩ =>
      have h : encodeMessage ⟨r, some cs⟩
          = Json.obj [("role", Json.str r),
              ("content", Json.arr (cs.map encodeContentItem))] := rfl
      rw [h, decodeMessage_obj, mapM_decode_encode]

theorem decodeHistory_encode (history : List Message) :
    decodeHistory (encodeHistory history) = some history := by
  simp only [decodeHistory, encodeHistory]
  induction history with
  | nil => rfl
  | cons m rest ih =>
      simp only [List.map_cons, List.mapM_cons, decodeMessage_encode, ih,
        Option.pure_def, Option.bind_eq_bind, Option.some_bind]

/-! ## Claim theorems about the storage service -/

/-- C5: for every non-empty history `H` in the persisted turn-record format,
`save(id, H)` then `load(id)` yields exactly the JS value of `H` — and that
value decodes back to `H`, so the round-trip is lossless (deep-equal). -/
theorem save_load_round_trip (st : StorageState) (conversationId : String)
    (H : List Message) (_hne : H ≠ []) :
    loadConversationHistory conversationId
        (saveConversationHistory conversationId H st) = encodeHistory H ∧
      decodeHistory (encodeHistory H) = some H := by
  refine ⟨?_, decodeHistory_encode H⟩
  simp [loadConversationHistory, saveConversationHistory]

/-- Witness for C5 at a concrete one-turn history. -/
theorem save_load_round_trip_witness :
    ([sampleUserMsg] : List Message) ≠ [] ∧
      (loadConversationHistory ("conv1")
          (saveConversationHistory ("conv1") [sampleUserMsg] emptyStorage)
          = encodeHistory [sampleUserMsg] ∧
        decodeHistory (encodeHistory [sampleUserMsg])
          = some [sampleUserMsg]) :=
  ⟨by decide,
    save_load_round_trip emptyStorage ("conv1") [sampleUserMsg] (by decide)⟩

/-- C6: `load` yields the empty sequence after a `delete` of the same id, on a
store with no data for the id, and on a store whose blob for the id is
malformed — corrupt or missing data is never a hard error. -/
theorem delete_then_load_empty (st : StorageState) (conversationId raw : String) :
    loadConversationHistory conversationId
        (deleteConversationHistory conversationId st) = Json.arr [] ∧
      loadConversationHistory conversationId emptyStorage = Json.arr [] ∧
      loadConversationHistory conversationId
          ⟨fun k => if k = conversationId then
              some (BlobContent.malformed raw)
            else st.files k⟩ = Json.arr [] := by
  refine ⟨?_, rfl, ?_⟩ <;>
    simp [loadConversationHistory, deleteConversationHistory]

/-! ## Reference-level model of the trimmer for the mutation claim

JavaScript arrays are heap references: `trimConversationToTokenLimit` receives
a reference to the caller's array, evaluates
`const trimmedHistory = [...history]` (allocating a fresh array with the same
content) and then `splice`s only that clone.  To state that the caller's array
is never mutated, the same function is run here over an explicit array heap:
`ArrayStore.mem` maps references (allocation numbers) to array contents,
`next` is the next fresh reference, and a reference is valid when it is below
`next`. -/

structure ArrayStore where
  mem : Nat → List Message
  next : Nat

/-- `arr.splice(0, 2)` performed on the array behind reference `r`. -/
def spliceFront2 (σ : ArrayStore) (r : Nat) : ArrayStore :=
  { σ with mem := fun i => if i = r then (σ.mem i).drop 2 else σ.mem i }

/-- `[...history]`: allocate a fresh array holding the content of `r` and
return the new reference. -/
def allocClone (σ : ArrayStore) (r : Nat) : ArrayStore × Nat :=
  ({ mem := fun i => if i = σ.next then σ.mem r else σ.mem i,
     next := σ.next + 1 }, σ.next)

/-- The `while` loop of the trimmer, splicing the array behind `r` in place. -/
def trimLoopRef (enc : String → Nat) (S U : Nat) (σ : ArrayStore) (r : Nat) :
    ArrayStore :=
  if _h : S + U + countTokensInHistory enc (σ.mem r) > MAX_TOKENS
      ∧ 2 ≤ (σ.mem r).length then
    trimLoopRef enc S U (spliceFront2 σ r) r
  else σ
termination_by (σ.mem r).length
decreasing_by
  simp [spliceFront2]
  omega

/-- `trimConversationToTokenLimit` over the array heap: `history` is the
caller's reference; the early returns hand the same reference back, the
trimming path clones and splices the clone. -/
def trimConversationToTokenLimitRef (enc : String → Nat) (σ : ArrayStore)
    (history : Nat) (systemTokens userTokens : Nat) : ArrayStore × Nat :=
  if (σ.mem history).length = 0 then (σ, history)
  else if systemTokens + userTokens + countTokensInHistory enc (σ.mem history)
      ≤ MAX_TOKENS then (σ, history)
  else
    let a := allocClone σ history
    (trimLoopRef enc systemTokens userTokens a.1 a.2, a.2)

/-- The splicing loop writes only to the array behind its own reference. -/
theorem trimLoopRef_frame (enc : String → Nat) (S U : Nat) (σ : ArrayStore)
    (r i : Nat) (hne : i ≠ r) :
    (trimLoopRef enc S U σ r).mem i = σ.mem i := by
  induction σ, r using trimLoopRef.induct enc S U with
  | case1 σ r hc ih =>
      rw [trimLoopRef, dif_pos hc, ih hne]
      simp [spliceFront2, hne]
  | case2 σ r hc =>
      rw [trimLoopRef, dif_neg hc]

/-- C9: `trimConversationToTokenLimit` never mutates its input array — over
the explicit array heap, the content behind the caller's (valid) reference is
identical after the call, and when no trimming is needed the input reference
itself is returned as-is. -/
theorem trim_does_not_mutate_input (enc : String → Nat) (σ : ArrayStore)
    (hRef S U : Nat) (hvalid : hRef < σ.next) :
    ((trimConversationToTokenLimitRef enc σ hRef S U).1).mem hRef
        = σ.mem hRef ∧
      (S + U + countTokensInHistory enc (σ.mem hRef) ≤ MAX_TOKENS →
        (trimConversationToTokenLimitRef enc σ hRef S U).2 = hRef) := by
  have hne : hRef ≠ σ.next := by omega
  constructor
  · unfold trimConversationToTokenLimitRef
    by_cases h0 : (σ.mem hRef).length = 0
    · simp [h0]
    · rw [if_neg h0]
      by_cases hle : S + U + countTokensInHistory enc (σ.mem hRef)
          ≤ MAX_TOKENS
      · simp [hle]
      · rw [if_neg hle]
        show (trimLoopRef enc S U (allocClone σ hRef).1
            (allocClone σ hRef).2).mem hRef = σ.mem hRef
        rw [trimLoopRef_frame enc S U (allocClone σ hRef).1 (allocClone σ hRef).2
          hRef hne]
        simp [allocClone, hne]
  · intro hle
    unfold trimConversationToTokenLimitRef
    by_cases h0 : (σ.mem hRef).length = 0
    · simp [h0]
    · simp [h0, hle]

/-- A one-array heap for the C9 witness. -/
def sampleStore : ArrayStore :=
  { mem := fun i => if i = 0 then [sampleUserMsg, sampleAsstMsg] else [],
    next := 1 }

/-- Witness for C9 at a concrete heap and reference. -/
theorem trim_does_not_mutate_input_witness :
    (0 : Nat) < sampleStore.next ∧
      (((trimConversationToTokenLimitRef sampleEnc sampleStore 0 500 0).1).mem 0
          = sampleStore.mem 0 ∧
        (500 + 0 + countTokensInHistory sampleEnc (sampleStore.mem 0)
            ≤ MAX_TOKENS →
          (trimConversationToTokenLimitRef sampleEnc sampleStore 0 500 0).2
            = 0)) :=
  ⟨by decide, trim_does_not_mutate_input sampleEnc sampleStore 0 500 0
    (by decide)⟩

/-! ## The per-turn orchestration (`TeamsBot.onMessage`)

One inbound message is processed end-to-end.  The model is faithful to the
handler's control flow with these representation choices:
  - `modelCall` is the outcome of `openai.responses.create` together with the
    response-shape handling that derives `botResponseText` from it
    (`Except.ok botResponseText`); a throw anywhere in the external call is
    `Except.error` and lands in the handler's `catch` branch;
  - `classifierCall` is the outcome of the instructor call inside
    `classifyTextForDisclaimer` (which itself never throws: C3);
  - the bot-framework conversation state is modeled by its content after
    `saveChanges`: `conversationHistoryAccessor.set` without a subsequent
    `saveChanges` leaves no cross-turn trace, so the error path, which never
    reaches `saveChanges`, leaves the state slot untouched;
  - `loadConversationHistory` yields a parsed JSON value; the handler uses it
    as a history, which `decodeHistory` recovers (lossless for anything this
    program saved, by `decodeHistory_encode`);
  - the typing indicator and all `console.log` calls are not part of the
    returned reply list, which holds the text replies sent to the user. -/

/-- Per-conversation state that survives a turn: the saved bot-framework
history slots and the durable history store. -/
structure BotState where
  conversationHistory : String → List Message
  storage : StorageState

/-- `String.prototype.toLowerCase` (character-wise lowering; the only use is
the comparison against the all-ASCII command `/restart`). -/
def lowerString (s : String) : String := String.mk (s.data.map Char.toLower)

/-- The generic apology sent from the handler's `catch` branch. -/
def apologyMessage : String :=
  "I\x27m sorry, I\x27m having trouble processing your request. Please try again later."

/-- The standard long disclaimer sent at first contact and on reset. -/
def standardDisclaimer : String :=
  "**DISCLAIMER:** U.S. Tax Assistant provides general tax information and guidance only. The information provided is not legal or tax advice, and should not be relied upon as such. Tax laws are complex and subject to change. While we strive for accuracy, this bot may not account for your specific circumstances, recent tax law changes, or uncommon tax situations. Always verify information with the official IRS resources or consult with a qualified tax professional before making financial decisions or tax filings. Jake Campbell, the creator of this bot, is not responsible for any actions taken based on the information provided."

/-- The short disclaimer appended to replies labeled `NEEDS_DISCLAIMER`. -/
def shortDisclaimer : String :=
  "\n\n---\n*Note: This is not professional tax advice. Please verify all information provided.*"

/-- Confirmation reply of the `/restart` command. -/
def resetConfirmation : String :=
  "Conversation history has been reset! Let\x27s start over!"

/-- Hint reply sent after the reset confirmation and at first contact. -/
def restartHint : String :=
  "You can type \x27/restart\x27 anytime to start fresh!"

/-- The user turn appended to history for the inbound text. -/
def userTurn (txt : String) : Message :=
  { role := "user", content := some [{ type := "input_text", text := txt }] }

/-- The assistant turn appended to history for the model reply
(`input_text` changed to `output_text` for assistant messages). -/
def assistantTurn (txt : String) : Message :=
  { role := "assistant",
    content := some [{ type := "output_text", text := txt }] }

/-- One run of the `onMessage` handler on the (mention-stripped, trimmed)
text `txt` for conversation `conversationId`.  Returns the list of text
replies sent and the state left for the next turn. -/
def runTurn (enc : String → Nat) (systemMessage : String)
    (conversationId txt : String) (modelCall : Except String String)
    (classifierCall : Except String DisclaimerClassification)
    (st : BotState) : List String × BotState :=
  if lowerString txt = "/restart" then
    ([resetConfirmation, standardDisclaimer, restartHint],
     { conversationHistory := fun id =>
         if id = conversationId then [] else st.conversationHistory id,
       storage := deleteConversationHistory conversationId st.storage })
  else
    let stateHistory := st.conversationHistory conversationId
    let savedHistory :=
      (decodeHistory (loadConversationHistory conversationId st.storage)).getD []
    let conversationHistory :=
      if stateHistory.length = 0 ∧ savedHistory.length > 0 then savedHistory
      else stateHistory
    let systemTokens := enc systemMessage
    match modelCall with
    | Except.error _ => ([apologyMessage], st)
    | Except.ok botResponseText =>
        let classification := classifyTextForDisclaimer classifierCall
        let reply :=
          if classification.class_label
              = ClassificationLabel.NEEDS_DISCLAIMER then
            botResponseText ++ shortDisclaimer
          else botResponseText
        let newHistory :=
          conversationHistory ++ [userTurn txt, assistantTurn botResponseText]
        let trimmed :=
          if newHistory.length > 0 then
            trimConversationToTokenLimit enc newHistory systemTokens 0
          else newHistory
        ([reply],
         { conversationHistory := fun id =>
             if id = conversationId then trimmed
             else st.conversationHistory id,
           storage := saveConversationHistory conversationId trimmed
             st.storage })

/-- C4: if the model call fails during a (non-reset) turn, the turn is
terminal — the only reply is the generic apology, and the conversation state
(in-memory history slots and durable store alike) is exactly what it was
before the turn began. -/
theorem model_failure_terminal (enc : String → Nat)
    (systemMessage conversationId txt e : String)
    (classifierCall : Except String DisclaimerClassification) (st : BotState)
    (hcmd : lowerString txt ≠ "/restart") :
    runTurn enc systemMessage conversationId txt (Except.error e)
        classifierCall st
      = ([apologyMessage], st) := by
  unfold runTurn
  rw [if_neg hcmd]

/-- An initial bot state for the C4 witness. -/
def sampleBotState : BotState :=
  { conversationHistory := fun _ => [], storage := emptyStorage }

/-- Witness for C4 at a concrete non-reset turn whose model call throws. -/
theorem model_failure_terminal_witness :
    lowerString ("Hello") ≠ "/restart" ∧
      runTurn sampleEnc ("sys") ("conv1") ("Hello") (Except.error ("boom"))
          (Except.error ("down")) sampleBotState
        = ([apologyMessage], sampleBotState) :=
  ⟨by decide,
    model_failure_terminal sampleEnc ("sys") ("conv1") ("Hello") ("boom")
      (Except.error ("down")) sampleBotState (by decide)⟩

end TaxBot
